import Mathlib

/-!
# Tutorial backend: server bootstrap and configuration

A shallow embedding of `backend/server.js` and `backend/app/models/index.js`.

* JavaScript values are the three shapes the bootstrap manipulates
  (`undefined`, strings, numbers) with the truthiness used by `||`.
* `process.env` is an association list of string pairs.
* The module body of `server.js` is a state-passing function on `Proc`,
  recording every external effect in a trace tagged with the execution
  context (module body or one of the three callbacks) that performed it.
* Promise reactions are jobs on a microtask queue; they never run inside
  the module body.
* The call to `listen` may throw in the module body (bad port) or fail later
  (the socket cannot be bound); either ends the process with status `1`.
-/

namespace Backend

/-! ## JavaScript values and the process environment -/

/-- The JavaScript values that occur in the bootstrap. -/
inductive JSVal where
  | undefined
  | str (s : String)
  | num (n : Int)
  deriving DecidableEq, Repr

/-- JavaScript truthiness: `undefined`, the empty string and `0` are falsy. -/
def JSVal.truthy : JSVal → Bool
  | .undefined => false
  | .str s => decide (s ≠ "")
  | .num n => decide (n ≠ 0)

/-- The operator `a || b`: the left operand when it is truthy, else the right. -/
def jsOr (a b : JSVal) : JSVal :=
  if a.truthy then a else b

/-- String conversion as performed by a template literal. -/
def JSVal.toStr : JSVal → String
  | .undefined => "undefined"
  | .str s => s
  | .num n => toString n

/-- The process environment `process.env`: variable names paired with values. -/
abbrev Env := List (String × String)

/-- The property read `process.env.NAME`: `undefined` when the variable is unset. -/
def envGet (env : Env) (name : String) : JSVal :=
  match env.lookup name with
  | some v => .str v
  | none => .undefined

/-! ## `app/models/index.js` -/

/-- The exported object `db` of `app/models/index.js` (its `url` field; the
`mongoose` handle and the `tutorials` model are external collaborators). -/
structure Db where
  url : JSVal
  deriving DecidableEq, Repr

/-- Line 5 of `app/models/index.js`:
`db.url = process.env.MONGO_URL || "mongodb://localhost:27017/appdb"`. -/
def modelsIndex (env : Env) : Db :=
  { url := jsOr (envGet env "MONGO_URL") (.str "mongodb://localhost:27017/appdb") }

/-! ## `server.js` -/

/-- The two body parsers installed with `app.use`. -/
inductive Middleware where
  | json
  | urlencoded
  deriving DecidableEq, Repr

/-- The options object given to `connect`. -/
structure ConnectOptions where
  useNewUrlParser : Bool
  useUnifiedTopology : Bool
  deriving DecidableEq, Repr

/-- External effects performed by the bootstrap. -/
inductive Effect where
  | use (mw : Middleware)
  | connect (url : JSVal) (opts : ConnectOptions)
  | registerRoutes
  | listen (port : JSVal) (host : String)
  | log (args : List String)
  | exit (code : Option Nat)
  deriving DecidableEq, Repr

/-- The piece of code that performs an effect: the module body of `server.js`
or one of its three callbacks. -/
inductive Ctx where
  | main
  | thenCallback
  | catchCallback
  | listenCallback
  deriving DecidableEq, Repr

/-- How the promise returned by `connect` settles. -/
inductive Settlement where
  | fulfilled
  | rejected (err : String)
  deriving DecidableEq, Repr

/-- Promise reaction jobs of the chain `connect(..).then(f).catch(g)`. -/
inductive Job where
  | thenReaction (s : Settlement)
  | catchReaction (s : Settlement)
  deriving DecidableEq, Repr

/-- Process state: the effects so far, `process.exitCode`, the exit status
once terminated, and the microtask queue. -/
structure Proc where
  trace : List (Ctx × Effect)
  exitCode : Option Nat
  status : Option Nat
  microtasks : List Job
  deriving DecidableEq, Repr

/-- A freshly started process. -/
def Proc.start : Proc :=
  { trace := [], exitCode := none, status := none, microtasks := [] }

/-- Perform an effect; a terminated process performs nothing. -/
def Proc.emit (p : Proc) (c : Ctx) (e : Effect) : Proc :=
  match p.status with
  | some _ => p
  | none => { p with trace := p.trace ++ [(c, e)] }

/-- Queue a promise reaction job. -/
def Proc.enqueue (p : Proc) (j : Job) : Proc :=
  match p.status with
  | some _ => p
  | none => { p with microtasks := p.microtasks ++ [j] }

/-- The call `process.exit(code)`: terminates at once with status `code`, or,
when the argument is omitted, with `process.exitCode` if set and `0` otherwise. -/
def Proc.processExit (p : Proc) (c : Ctx) (code : Option Nat) : Proc :=
  match p.status with
  | some _ => p
  | none =>
    { p with
      trace := p.trace ++ [(c, .exit code)]
      status := some (code.getD (p.exitCode.getD 0))
      microtasks := [] }

/-- An exception that nothing catches: the process terminates with status `1`. -/
def Proc.uncaught (p : Proc) : Proc :=
  match p.status with
  | some _ => p
  | none => { p with status := some 1, microtasks := [] }

/-- Decimal value of a string of digits. -/
def digitsValue (cs : List Char) : Nat :=
  cs.foldl (fun n c => 10 * n + (c.toNat - 48)) 0

/-- The port check that `listen` of the HTTP stack makes on its first argument,
as far as it is decided here. A number, or a string of decimal digits, is
accepted exactly when its value is at most `65535`; a string of blanks only
(the empty string included) is rejected; for every other value the answer is
left to the HTTP stack (`none`). -/
def portCheck : JSVal → Option Bool
  | .undefined => none
  | .num n => some (decide (0 ≤ n ∧ n ≤ 65535))
  | .str s =>
    if s.data.all Char.isWhitespace then some false
    else if s.data.all Char.isDigit then some (decide (digitsValue s.data ≤ 65535))
    else none

/-- Behaviour of the HTTP stack on the call to `listen`: whether it accepts a
port that `portCheck` leaves undecided, and whether the socket can be bound
(it cannot when the port is in use or not permitted). -/
structure HttpStack where
  acceptsPort : Bool
  binds : Bool
  deriving DecidableEq, Repr

/-- Does `listen(port, ..)` throw in the caller: the port is rejected. -/
def listenThrows (port : JSVal) (net : HttpStack) : Bool :=
  match portCheck port with
  | some ok => !ok
  | none => !net.acceptsPort

/-- First argument of `connect` on line 8: `process.env.MONGO_URL || db.url`. -/
def connectUrl (env : Env) : JSVal :=
  jsOr (envGet env "MONGO_URL") (modelsIndex env).url

/-- Second argument of `connect`, lines 8-11. -/
def connectOptions : ConnectOptions :=
  { useNewUrlParser := true, useUnifiedTopology := true }

/-- Line 20: `const PORT = process.env.PORT || 3000`. -/
def PORT (env : Env) : JSVal :=
  jsOr (envGet env "PORT") (.num 3000)

/-- The module body of `server.js`, lines 1-23, run synchronously.
`early` is `some s` when the promise returned by `connect` is already settled
as `s` when `.then` is called on it; its reaction is then queued, not run.
When the call to `listen` on line 21 throws, nothing catches the exception. -/
def serverMain (env : Env) (early : Option Settlement) (net : HttpStack)
    (p : Proc) : Proc :=
  let p := p.emit .main (.use .json)
  let p := p.emit .main (.use .urlencoded)
  let p := p.emit .main (.connect (connectUrl env) connectOptions)
  let p := match early with
    | some s => p.enqueue (.thenReaction s)
    | none => p
  let p := p.emit .main .registerRoutes
  let p := p.emit .main (.listen (PORT env) "0.0.0.0")
  if listenThrows (PORT env) net then p.uncaught else p

/-- The callback of `.then`, lines 11-13. -/
def onConnected (p : Proc) : Proc :=
  p.emit .thenCallback (.log ["Connected to the database!"])

/-- The callback of `.catch`, lines 13-16. -/
def onConnectFailed (err : String) (p : Proc) : Proc :=
  let p := p.emit .catchCallback (.log ["Cannot connect to the database!", err])
  p.processExit .catchCallback none

/-- The callback of `app.listen`, lines 21-23. -/
def onListening (env : Env) (p : Proc) : Proc :=
  p.emit .listenCallback
    (.log ["Server is running on port " ++ (PORT env).toStr ++ "."])

/-- Run one promise reaction job. `.then(f)` without a rejection handler
passes a rejection on to the derived promise; `.catch(g)` ignores fulfilment. -/
def runJob (j : Job) (p : Proc) : Proc :=
  match j with
  | .thenReaction .fulfilled => (onConnected p).enqueue (.catchReaction .fulfilled)
  | .thenReaction (.rejected err) => p.enqueue (.catchReaction (.rejected err))
  | .catchReaction .fulfilled => p
  | .catchReaction (.rejected err) => onConnectFailed err p

/-- Run queued microtasks, oldest first, for at most `fuel` jobs. -/
def drain : Nat → Proc → Proc
  | 0, p => p
  | fuel + 1, p =>
    match p.status, p.microtasks with
    | some _, _ => p
    | none, [] => p
    | none, j :: rest => drain fuel (runJob j { p with microtasks := rest })

/-- The host settles a pending `connect` promise: its reaction is queued.
Nothing happens when the promise was already settled at `connect`. -/
def settle (early : Bool) (outcome : Settlement) (p : Proc) : Proc :=
  if early then p else p.enqueue (.thenReaction outcome)

/-- The host reports the result of binding the socket: either the listen
callback runs, or the server emits an `error` event, which has no listener
and is therefore thrown and caught by nothing. -/
def listenEvent (env : Env) (net : HttpStack) (p : Proc) : Proc :=
  if net.binds then onListening env p else p.uncaught

/-- A whole run of the server process. The module body runs first; if it
has not ended the process, the host delivers the result of binding the socket
and the settlement of the connection in either order (`listenFirst`), draining
microtasks after each. -/
def run (env : Env) (outcome : Settlement) (early listenFirst : Bool)
    (net : HttpStack) : Proc :=
  let p := serverMain env (if early then some outcome else none) net Proc.start
  if listenFirst then
    drain 4 (settle early outcome (drain 4 (listenEvent env net p)))
  else
    drain 4 (listenEvent env net (drain 4 (settle early outcome (drain 4 p))))

/-! ## Observations on traces -/

/-- The effects that are startup steps: installing a body parser, opening the
database connection, registering the routes, listening. -/
def Effect.isStartupStep : Effect → Bool
  | .use _ => true
  | .connect _ _ => true
  | .registerRoutes => true
  | .listen _ _ => true
  | .log _ => false
  | .exit _ => false

/-- The connection string of a `connect` effect. -/
def Effect.connectArg? : Effect → Option JSVal
  | .connect url _ => some url
  | _ => none

/-- The port of a `listen` effect. -/
def Effect.listenArg? : Effect → Option JSVal
  | .listen port _ => some port
  | _ => none

/-- The status argument of an `exit` effect. -/
def Effect.exitArg? : Effect → Option (Option Nat)
  | .exit code => some code
  | _ => none

/-- Every connection string passed to `connect` during a run, in order. -/
def connectArgs (t : List (Ctx × Effect)) : List JSVal :=
  t.filterMap (fun x => x.2.connectArg?)

/-- Every port passed to `listen` during a run, in order. -/
def listenArgs (t : List (Ctx × Effect)) : List JSVal :=
  t.filterMap (fun x => x.2.listenArg?)

/-- Every status argument passed to `process.exit` during a run, in order. -/
def exitArgs (t : List (Ctx × Effect)) : List (Option Nat) :=
  t.filterMap (fun x => x.2.exitArg?)

/-- The effects performed by one execution context, in order. -/
def effectsOf (c : Ctx) (t : List (Ctx × Effect)) : List Effect :=
  (t.filter (fun x => decide (x.1 = c))).map Prod.snd

/-- The effects of the module body of `server.js`, in program order. -/
def mainTrace (env : Env) : List (Ctx × Effect) :=
  [(.main, .use .json), (.main, .use .urlencoded),
   (.main, .connect (connectUrl env) connectOptions),
   (.main, .registerRoutes), (.main, .listen (PORT env) "0.0.0.0")]

/-- The effect of the listen callback. -/
def listenTrace (env : Env) : List (Ctx × Effect) :=
  [(.listenCallback, .log ["Server is running on port " ++ (PORT env).toStr ++ "."])]

/-- The effects of the failure handler. -/
def failureTrace (err : String) : List (Ctx × Effect) :=
  [(.catchCallback, .log ["Cannot connect to the database!", err]),
   (.catchCallback, .exit none)]

/-! ## Data Access Layer and Route Layer

`app/models/tutorial.model.js` and `app/routes/tutorial.routes.js` (with the
controller it dispatches to) are required by the two source files above but
are not part of the sources at hand. The definitions of this section follow
the specification, sections 3, 4.1, 4.2, 6 and 7. -/

/-- Modelled from the spec: the Tutorial record defined by the missing
`app/models/tutorial.model.js` (section 3): a server-generated `id`, a
required `title`, an optional `description`, a `published` flag. -/
structure Tutorial where
  id : Nat
  title : String
  description : Option String
  published : Bool
  deriving DecidableEq, Repr

/-- Modelled from the spec: the request body `{title, description?, published?}`
read by the missing controller (section 6); each field may be absent. -/
structure Fields where
  title : Option String
  description : Option String
  published : Option Bool
  deriving DecidableEq, Repr

/-- Modelled from the spec: the document store behind the missing Data Access
Layer: the ordered sequence of persisted records, and the next identifier the
server will generate. -/
structure Store where
  records : List Tutorial
  nextId : Nat
  deriving DecidableEq, Repr

/-- Modelled from the spec: the store of the missing Data Access Layer before
any request. -/
def Store.empty : Store :=
  { records := [], nextId := 0 }

/-- Modelled from the spec: the invariant of section 3 on the missing store:
persisted records have pairwise distinct ids, all of them already issued. -/
def Store.WF (s : Store) : Prop :=
  (s.records.map Tutorial.id).Nodup ∧ ∀ r ∈ s.records, r.id < s.nextId

instance Store.decidableWF (s : Store) : Decidable s.WF := by
  unfold Store.WF
  infer_instance

/-- Modelled from the spec: the failures signalled by the missing Data Access
Layer (section 7): validation error and not-found. -/
inductive DalError where
  | validation
  | notFound
  deriving DecidableEq, Repr

/-- Modelled from the spec: `create(fields)` of the missing Data Access Layer
(section 4.1): rejects with a validation error if title is absent or empty,
else stores and returns the new record with its generated id; `published`
defaults to false. -/
def create (s : Store) (f : Fields) : Except DalError (Tutorial × Store) :=
  match f.title with
  | none => .error .validation
  | some t =>
    if t = "" then .error .validation
    else
      let r : Tutorial :=
        { id := s.nextId, title := t, description := f.description,
          published := f.published.getD false }
      .ok (r, { records := s.records ++ [r], nextId := s.nextId + 1 })

/-- Modelled from the spec: case folding for the case-insensitive title
comparison of the missing `findAll`. The spec names no case mapping, so the
mapping `fold`, which sends the two cases of a letter to one character, is a
parameter; two strings are equal up to case when their foldings are equal. -/
def foldCase (fold : Char → Char) (s : String) : List Char :=
  s.data.map fold

/-- Modelled from the spec: does `text` begin with `pat` (helper of the
substring test of the missing `findAll`). -/
def startsWith : List Char → List Char → Bool
  | [], _ => true
  | _ :: _, [] => false
  | a :: pat, b :: text => a == b && startsWith pat text

/-- Modelled from the spec: does `pat` occur in `text` as a contiguous
substring (the title test of the missing `findAll`). -/
def occursIn (pat : List Char) : List Char → Bool
  | [] => startsWith pat []
  | c :: text => startsWith pat (c :: text) || occursIn pat text

/-- Modelled from the spec: the title test of the missing `findAll`: the title
contains the filter as a substring, case-insensitively. -/
def titleContains (fold : Char → Char) (filter : String) (r : Tutorial) : Bool :=
  occursIn (foldCase fold filter) (foldCase fold r.title)

/-- Modelled from the spec: `findAll(titleFilter?)` of the missing Data Access
Layer (section 4.1): the ordered sequence of all records, or only those whose
title contains the given substring when a filter is supplied. -/
def findAll (fold : Char → Char) (s : Store) (titleFilter : Option String) :
    List Tutorial :=
  match titleFilter with
  | none => s.records
  | some filter => s.records.filter (titleContains fold filter)

/-- Modelled from the spec: the partial field replacement of the missing
`update`: a supplied field replaces the stored one, an absent field keeps it;
the id is immutable. -/
def Tutorial.patch (r : Tutorial) (f : Fields) : Tutorial :=
  { id := r.id
    title := match f.title with
      | some t => t
      | none => r.title
    description := match f.description with
      | some d => some d
      | none => r.description
    published := match f.published with
      | some b => b
      | none => r.published }

/-- Modelled from the spec: replace the first record with the given id in the
sequence of the missing store; `none` if no record matches. -/
def updateRecords (id : Nat) (f : Fields) : List Tutorial → Option (List Tutorial)
  | [] => none
  | r :: rest =>
    if r.id = id then some (r.patch f :: rest)
    else (updateRecords id f rest).map (fun rs => r :: rs)

/-- Modelled from the spec: `update(id, fields)` of the missing Data Access
Layer (section 4.1): applies a partial field replacement; signals not-found
if no record matches; returns a success indicator. -/
def update (s : Store) (id : Nat) (f : Fields) : Except DalError Store :=
  match updateRecords id f s.records with
  | none => .error .notFound
  | some rs => .ok { records := rs, nextId := s.nextId }

/-- Modelled from the spec: the JSON body of a response of the missing Route
Layer (section 4.2): a record, a list, a success indicator, or an error. -/
inductive Body where
  | record (r : Tutorial)
  | list (rs : List Tutorial)
  | success
  | error (e : DalError)
  deriving DecidableEq, Repr

/-- Modelled from the spec: an HTTP response of the missing Route Layer. -/
structure Response where
  status : Nat
  body : Body
  deriving DecidableEq, Repr

/-- Modelled from the spec: the status mapping of the missing Route Layer
(sections 4.2 and 7): validation error 400, not-found 404. -/
def errorResponse (e : DalError) : Response :=
  match e with
  | .validation => { status := 400, body := .error .validation }
  | .notFound => { status := 404, body := .error .notFound }

/-- Modelled from the spec: the handler of `POST /tutorials` of the missing
Route Layer: calls `create`, 200 with the created record or 400. -/
def postTutorials (s : Store) (f : Fields) : Response × Store :=
  match create s f with
  | .ok (r, s') => ({ status := 200, body := .record r }, s')
  | .error e => (errorResponse e, s)

/-- Modelled from the spec: the handler of `GET /tutorials` of the missing
Route Layer: calls `findAll` with the `title` query parameter, 200 with the
list. -/
def getTutorials (fold : Char → Char) (s : Store) (title : Option String) :
    Response :=
  { status := 200, body := .list (findAll fold s title) }

/-- Modelled from the spec: the handler of `PUT /tutorials/:id` of the missing
Route Layer: calls `update`, 200 on success or 404 if absent. -/
def putTutorial (s : Store) (id : Nat) (f : Fields) : Response × Store :=
  match update s id f with
  | .ok s' => ({ status := 200, body := .success }, s')
  | .error e => (errorResponse e, s)

/-- A well-formed store holding two records, on which the theorems about the
Data Access Layer are instantiated. -/
def sampleStore : Store :=
  { records :=
      [{ id := 0, title := "Learn X", description := none, published := false },
       { id := 1, title := "Learn Y", description := some "notes", published := true }]
    nextId := 2 }

/-- A case folding of the letters of ASCII and Latin-1: capitals are sent to
their small letters, every other character to itself. The theorem about
`findAll` holds for every folding and is instantiated on this one. -/
def sampleFold (c : Char) : Char :=
  if ('A' ≤ c ∧ c ≤ 'Z') ∨ ('À' ≤ c ∧ c ≤ 'Þ' ∧ c ≠ '×') then
    Char.ofNat (c.toNat + 32)
  else c

/-! ## Closed forms of a run -/

theorem run_listen_throws (env : Env) (outcome : Settlement) (early listenFirst : Bool)
    (net : HttpStack) (h : listenThrows (PORT env) net = true) :
    run env outcome early listenFirst net =
      { trace := mainTrace env, exitCode := none, status := some 1, microtasks := [] } := by
  obtain ⟨a, b⟩ := net
  cases outcome <;> cases early <;> cases listenFirst <;> cases b <;>
    simp only [run, serverMain, h] <;> rfl

theorem run_rejected (env : Env) (err : String) (early listenFirst : Bool)
    (net : HttpStack) (hlisten : listenThrows (PORT env) net = false)
    (hbind : listenFirst = true → net.binds = true) :
    run env (.rejected err) early listenFirst net =
      { trace := mainTrace env ++ (if listenFirst then listenTrace env else [])
          ++ failureTrace err
        exitCode := none
        status := some 0
        microtasks := [] } := by
  obtain ⟨a, b⟩ := net
  cases listenFirst
  · cases early <;> cases b <;> simp only [run, serverMain, hlisten] <;> rfl
  · have hb : b = true := hbind rfl
    subst hb
    cases early <;> simp only [run, serverMain, hlisten] <;> rfl

theorem run_fulfilled (env : Env) (early listenFirst : Bool) (net : HttpStack)
    (hlisten : listenThrows (PORT env) net = false) (hbind : net.binds = true) :
    run env .fulfilled early listenFirst net =
      { trace := mainTrace env ++
          (if listenFirst then
            listenTrace env ++ [(.thenCallback, .log ["Connected to the database!"])]
          else
            (.thenCallback, .log ["Connected to the database!"]) :: listenTrace env)
        exitCode := none
        status := none
        microtasks := [] } := by
  obtain ⟨a, b⟩ := net
  have hb : b = true := hbind
  subst hb
  cases early <;> cases listenFirst <;> simp only [run, serverMain, hlisten] <;> rfl

theorem run_fulfilled_unbound (env : Env) (early listenFirst : Bool) (net : HttpStack)
    (hlisten : listenThrows (PORT env) net = false) (hbind : net.binds = false) :
    run env .fulfilled early listenFirst net =
      { trace := mainTrace env ++
          (if listenFirst then []
           else [(.thenCallback, .log ["Connected to the database!"])])
        exitCode := none
        status := some 1
        microtasks := [] } := by
  obtain ⟨a, b⟩ := net
  have hb : b = false := hbind
  subst hb
  cases early <;> cases listenFirst <;> simp only [run, serverMain, hlisten] <;> rfl

theorem run_rejected_unbound (env : Env) (err : String) (early : Bool) (net : HttpStack)
    (hlisten : listenThrows (PORT env) net = false) (hbind : net.binds = false) :
    run env (.rejected err) early true net =
      { trace := mainTrace env, exitCode := none, status := some 1, microtasks := [] } := by
  obtain ⟨a, b⟩ := net
  have hb : b = false := hbind
  subst hb
  cases early <;> simp only [run, serverMain, hlisten] <;> rfl

theorem jsOr_envGet_str (env : Env) (name dflt : String) :
    jsOr (envGet env name) (.str dflt) =
      match env.lookup name with
      | some v => if v = "" then .str dflt else .str v
      | none => .str dflt := by
  unfold jsOr envGet
  cases h : env.lookup name with
  | none => simp [JSVal.truthy]
  | some v => by_cases hv : v = "" <;> simp [JSVal.truthy, hv]

theorem modelsIndex_url (env : Env) :
    (modelsIndex env).url =
      match env.lookup "MONGO_URL" with
      | some v => if v = "" then .str "mongodb://localhost:27017/appdb" else .str v
      | none => .str "mongodb://localhost:27017/appdb" := by
  unfold modelsIndex
  exact jsOr_envGet_str env _ _

theorem connectUrl_eq_url (env : Env) : connectUrl env = (modelsIndex env).url := by
  rw [connectUrl, modelsIndex_url]
  unfold jsOr envGet
  cases h : env.lookup "MONGO_URL" with
  | none => simp [JSVal.truthy]
  | some v => by_cases hv : v = "" <;> simp [JSVal.truthy, hv]

theorem PORT_eq (env : Env) :
    PORT env =
      match env.lookup "PORT" with
      | some v => if v = "" then .num 3000 else .str v
      | none => .num 3000 := by
  unfold PORT jsOr envGet
  cases h : env.lookup "PORT" with
  | none => simp [JSVal.truthy]
  | some v => by_cases hv : v = "" <;> simp [JSVal.truthy, hv]

theorem serverMain_trace (env : Env) (early : Option Settlement) (net : HttpStack) :
    (serverMain env early net Proc.start).trace = mainTrace env := by
  cases early <;> cases h : listenThrows (PORT env) net <;>
    simp only [serverMain, h] <;> rfl

/-- Every run performs the effects of the module body first; what follows is
made by callbacks and contains no startup step, no exit call with an argument,
and no change of `process.exitCode`. -/
theorem run_trace_main (env : Env) (outcome : Settlement) (early listenFirst : Bool)
    (net : HttpStack) :
    ∃ post, (run env outcome early listenFirst net).trace = mainTrace env ++ post ∧
      (∀ x ∈ post, x.1 ≠ Ctx.main ∧ x.2.isStartupStep = false ∧
        x.2.connectArg? = none ∧ x.2.listenArg? = none ∧
        (x.2.exitArg? = none ∨ x.2.exitArg? = some none)) ∧
      (run env outcome early listenFirst net).exitCode = none := by
  cases hT : listenThrows (PORT env) net
  · cases outcome with
    | fulfilled =>
      cases hB : net.binds
      · rw [run_fulfilled_unbound env early listenFirst net hT hB]
        cases listenFirst <;>
          exact ⟨_, rfl, by simp [Effect.isStartupStep, Effect.connectArg?,
            Effect.listenArg?, Effect.exitArg?], rfl⟩
      · rw [run_fulfilled env early listenFirst net hT hB]
        cases listenFirst <;>
          exact ⟨_, rfl, by simp [listenTrace, Effect.isStartupStep, Effect.connectArg?,
            Effect.listenArg?, Effect.exitArg?], rfl⟩
    | rejected err =>
      by_cases hB : listenFirst = true → net.binds = true
      · rw [run_rejected env err early listenFirst net hT hB]
        cases listenFirst <;>
          exact ⟨_, by simp only [List.append_assoc]; rfl,
            by simp [listenTrace, failureTrace, Effect.isStartupStep, Effect.connectArg?,
              Effect.listenArg?, Effect.exitArg?], rfl⟩
      · have hL : listenFirst = true := by
          cases listenFirst
          · exact absurd (fun h => Bool.noConfusion h) hB
          · rfl
        have hB2 : net.binds = false := by
          cases hb : net.binds
          · rfl
          · exact absurd (fun _ => hb) hB
        subst hL
        rw [run_rejected_unbound env err early net hT hB2]
        exact ⟨[], by simp, by simp, rfl⟩
  · rw [run_listen_throws env outcome early listenFirst net hT]
    exact ⟨[], by simp, by simp, rfl⟩

/-! ## Data Access Layer: lemmas -/

theorem startsWith_iff (pat text : List Char) :
    startsWith pat text = true ↔ ∃ post, text = pat ++ post := by
  induction pat generalizing text with
  | nil => simp [startsWith]
  | cons a pat ih =>
    cases text with
    | nil => simp [startsWith]
    | cons b text =>
      simp only [startsWith, Bool.and_eq_true, beq_iff_eq, ih, List.cons_append,
        List.cons.injEq]
      constructor
      · rintro ⟨hab, post, hpost⟩
        exact ⟨post, hab.symm, hpost⟩
      · rintro ⟨post, hab, hpost⟩
        exact ⟨hab.symm, post, hpost⟩

theorem occursIn_iff (pat text : List Char) :
    occursIn pat text = true ↔ ∃ pre post, text = pre ++ pat ++ post := by
  induction text with
  | nil =>
    rw [occursIn, startsWith_iff]
    constructor
    · rintro ⟨post, h⟩
      exact ⟨[], post, by simpa using h⟩
    · rintro ⟨pre, post, h⟩
      have h1 : pre ++ pat ++ post = [] := h.symm
      simp only [List.append_eq_nil] at h1
      exact ⟨[], by simp [h1.1.2]⟩
  | cons c text ih =>
    rw [occursIn, Bool.or_eq_true, startsWith_iff, ih]
    constructor
    · rintro (⟨post, h⟩ | ⟨pre, post, h⟩)
      · exact ⟨[], post, by simpa using h⟩
      · exact ⟨c :: pre, post, by simp [h]⟩
    · rintro ⟨pre, post, h⟩
      cases pre with
      | nil => exact Or.inl ⟨post, by simpa using h⟩
      | cons d pre =>
        simp only [List.cons_append, List.cons.injEq] at h
        exact Or.inr ⟨pre, post, h.2⟩

theorem map_eq_around (f : Char → Char) (text pat : List Char) :
    (∃ pre post, text.map f = pre ++ pat.map f ++ post) ↔
      ∃ pre mid post, text = pre ++ mid ++ post ∧ mid.map f = pat.map f := by
  constructor
  · rintro ⟨pre, post, h⟩
    obtain ⟨l₁, l₂, htext, h₁, -⟩ := List.map_eq_append_iff.1 h
    obtain ⟨a, b, hl₁, -, hb⟩ := List.map_eq_append_iff.1 h₁
    exact ⟨a, b, l₂, by rw [htext, hl₁], hb⟩
  · rintro ⟨pre, mid, post, htext, hmid⟩
    exact ⟨pre.map f, post.map f, by rw [htext, List.map_append, List.map_append, hmid]⟩

theorem occursIn_nil (text : List Char) : occursIn [] text = true :=
  (occursIn_iff [] text).2 ⟨[], text, rfl⟩

theorem updateRecords_eq_none (id : Nat) (f : Fields) (rs : List Tutorial)
    (h : ∀ r ∈ rs, r.id ≠ id) : updateRecords id f rs = none := by
  induction rs with
  | nil => rfl
  | cons r rest ih =>
    have hr : r.id ≠ id := h r (List.mem_cons_self _ _)
    have hrest : ∀ x ∈ rest, x.id ≠ id := fun x hx => h x (List.mem_cons_of_mem _ hx)
    simp [updateRecords, hr, ih hrest]

theorem updateRecords_split (id : Nat) (f : Fields) (rs : List Tutorial)
    (h : ∃ r ∈ rs, r.id = id) :
    ∃ pre r post, rs = pre ++ r :: post ∧ r.id = id ∧ (∀ x ∈ pre, x.id ≠ id) ∧
      updateRecords id f rs = some (pre ++ r.patch f :: post) := by
  induction rs with
  | nil => simp at h
  | cons a rest ih =>
    by_cases ha : a.id = id
    · exact ⟨[], a, rest, rfl, ha, by simp, by simp [updateRecords, ha]⟩
    · have hrest : ∃ r ∈ rest, r.id = id := by
        obtain ⟨r, hr, hid⟩ := h
        rcases List.mem_cons.1 hr with h1 | h1
        · exact absurd (h1 ▸ hid) ha
        · exact ⟨r, h1, hid⟩
      obtain ⟨pre, r, post, hsplit, hid, hpre, hupd⟩ := ih hrest
      refine ⟨a :: pre, r, post, by simp [hsplit], hid, ?_, ?_⟩
      · intro x hx
        rcases List.mem_cons.1 hx with h1 | h1
        · exact h1 ▸ ha
        · exact hpre x h1
      · simp [updateRecords, ha, hupd]

theorem updateRecords_map_id (id : Nat) (f : Fields) (rs rs' : List Tutorial)
    (h : updateRecords id f rs = some rs') :
    rs'.map Tutorial.id = rs.map Tutorial.id := by
  induction rs generalizing rs' with
  | nil => simp [updateRecords] at h
  | cons a rest ih =>
    by_cases ha : a.id = id
    · simp only [updateRecords, ha, if_true, Option.some.injEq] at h
      subst h
      simp [Tutorial.patch]
    · simp only [updateRecords, ha, if_false, Option.map_eq_some'] at h
      obtain ⟨rs2, h1, h2⟩ := h
      subst h2
      simp [ih rs2 h1]

theorem Store.WF_empty : Store.empty.WF := by
  simp [Store.WF, Store.empty]

theorem Store.WF_create (s s' : Store) (f : Fields) (r : Tutorial) (h : s.WF)
    (hc : create s f = .ok (r, s')) : s'.WF := by
  unfold create at hc
  cases ht : f.title with
  | none => simp [ht] at hc
  | some t =>
    by_cases he : t = ""
    · simp [ht, he] at hc
    · simp only [ht, he, if_false, Except.ok.injEq, Prod.mk.injEq] at hc
      obtain ⟨hr, hs⟩ := hc
      subst hs
      subst hr
      refine ⟨?_, ?_⟩
      · simp only [List.map_append, List.map_cons, List.map_nil]
        rw [List.nodup_append]
        refine ⟨h.1, by simp, ?_⟩
        intro a ha hb
        simp only [List.mem_singleton] at hb
        obtain ⟨x, hx, hxa⟩ := List.mem_map.1 ha
        have := h.2 x hx
        omega
      · intro x hx
        rcases List.mem_append.1 hx with h1 | h1
        · exact Nat.lt_succ_of_lt (h.2 x h1)
        · simp only [List.mem_singleton] at h1
          subst h1
          exact Nat.lt_succ_self _

theorem Store.WF_update (s s' : Store) (id : Nat) (f : Fields) (h : s.WF)
    (hu : update s id f = .ok s') : s'.WF := by
  unfold update at hu
  cases hr : updateRecords id f s.records with
  | none => simp [hr] at hu
  | some rs =>
    simp only [hr, Except.ok.injEq] at hu
    subst hu
    have hids := updateRecords_map_id id f s.records rs hr
    refine ⟨by simpa [hids] using h.1, ?_⟩
    intro x hx
    have hxid : x.id ∈ rs.map Tutorial.id := List.mem_map_of_mem _ hx
    rw [hids] at hxid
    obtain ⟨y, hy, hyx⟩ := List.mem_map.1 hxid
    have := h.2 y hy
    show x.id < s.nextId
    omega

/-! ## Server bootstrap: claims -/

/-- C1 (as stated) fails: with `PORT` set to `70000` and a malformed connection
string, the promise returned by `connect` is rejected, but the call to `listen`
throws in the module body; the process ends with status `1`, the failure
handler performs nothing and `process.exit` is never called. -/
theorem connect_failure_listen_throws_counterexample :
    (run [("MONGO_URL", "foo"), ("PORT", "70000")] (.rejected "Invalid connection string")
      true true ⟨true, true⟩).status = some 1 ∧
    effectsOf .catchCallback
      (run [("MONGO_URL", "foo"), ("PORT", "70000")] (.rejected "Invalid connection string")
        true true ⟨true, true⟩).trace = [] ∧
    exitArgs
      (run [("MONGO_URL", "foo"), ("PORT", "70000")] (.rejected "Invalid connection string")
        true true ⟨true, true⟩).trace = [] := by
  decide

/-- C1 (amended): every run whose connection attempt fails contains exactly one
`connect` call (no retry); and when the call to `listen` does not throw and the
server has not failed to bind before the rejection is handled, the process is
terminated, the last effect of the run is the `process.exit` call made by the
failure handler, and that handler does nothing but log and exit. -/
theorem connect_failure_is_fatal (env : Env) (err : String)
    (early listenFirst : Bool) (net : HttpStack) :
    (connectArgs (run env (.rejected err) early listenFirst net).trace).length = 1 ∧
    (listenThrows (PORT env) net = false → (listenFirst = true → net.binds = true) →
      (run env (.rejected err) early listenFirst net).status.isSome = true ∧
      (run env (.rejected err) early listenFirst net).trace.getLast? =
        some (Ctx.catchCallback, Effect.exit none) ∧
      effectsOf .catchCallback (run env (.rejected err) early listenFirst net).trace =
        [.log ["Cannot connect to the database!", err], .exit none]) := by
  constructor
  · obtain ⟨post, hrun, hpost, -⟩ := run_trace_main env (.rejected err) early listenFirst net
    have hnil : connectArgs post = [] := by
      unfold connectArgs
      rw [List.filterMap_eq_nil_iff]
      exact fun x hx => (hpost x hx).2.2.1
    have happ : connectArgs (mainTrace env ++ post) =
        connectArgs (mainTrace env) ++ connectArgs post := by
      simp [connectArgs]
    rw [hrun, happ, hnil]
    rfl
  · intro hlisten hbind
    rw [run_rejected env err early listenFirst net hlisten hbind]
    cases listenFirst <;> exact ⟨rfl, rfl, rfl⟩

/-- Witness for C1: no variable set, connection refused after the server is
listening. -/
theorem connect_failure_is_fatal_witness :
    listenThrows (PORT []) ⟨true, true⟩ = false ∧
    (run [] (.rejected "ECONNREFUSED") false true ⟨true, true⟩).status.isSome = true ∧
    (run [] (.rejected "ECONNREFUSED") false true ⟨true, true⟩).trace.getLast? =
      some (Ctx.catchCallback, Effect.exit none) ∧
    effectsOf .catchCallback
      (run [] (.rejected "ECONNREFUSED") false true ⟨true, true⟩).trace =
      [.log ["Cannot connect to the database!", "ECONNREFUSED"], .exit none] :=
  ⟨by decide,
   (connect_failure_is_fatal [] "ECONNREFUSED" false true ⟨true, true⟩).2
    (by decide) (fun _ => rfl)⟩

/-- C2: in every run the startup steps are, in this order and once each:
install the JSON parser, install the form-encoded parser, open the database
connection, register the routes, listen on the port. -/
theorem startup_steps_in_order (env : Env) (outcome : Settlement)
    (early listenFirst : Bool) (net : HttpStack) :
    (run env outcome early listenFirst net).trace.filter (fun x => x.2.isStartupStep) =
      [(.main, .use .json), (.main, .use .urlencoded),
       (.main, .connect (connectUrl env) connectOptions),
       (.main, .registerRoutes), (.main, .listen (PORT env) "0.0.0.0")] := by
  obtain ⟨post, hrun, hpost, -⟩ := run_trace_main env outcome early listenFirst net
  have hnil : post.filter (fun x => x.2.isStartupStep) = [] := by
    rw [List.filter_eq_nil_iff]
    intro x hx
    simp [(hpost x hx).2.1]
  rw [hrun, List.filter_append, hnil]
  rfl

/-- C3 (as stated) fails: with `MONGO_URL` set to the empty string the
connection string passed to `connect` is the hardcoded fallback, not the
value of the variable. -/
theorem connect_url_set_empty_counterexample :
    List.lookup "MONGO_URL" ([("MONGO_URL", "")] : Env) = some "" ∧
    connectArgs (run [("MONGO_URL", "")] .fulfilled false false ⟨true, true⟩).trace =
      [.str "mongodb://localhost:27017/appdb"] ∧
    connectArgs (run [("MONGO_URL", "")] .fulfilled false false ⟨true, true⟩).trace ≠
      [.str ""] := by
  decide

/-- C3 (amended): in every run exactly one connection string is passed to
`connect`; it is the value of `MONGO_URL` when that variable is set to a
non-empty string, and the fallback `mongodb://localhost:27017/appdb` when the
variable is unset or set to the empty string. -/
theorem connect_url_configured (env : Env) (outcome : Settlement)
    (early listenFirst : Bool) (net : HttpStack) :
    connectArgs (run env outcome early listenFirst net).trace =
      [match env.lookup "MONGO_URL" with
       | some v => if v = "" then .str "mongodb://localhost:27017/appdb" else .str v
       | none => .str "mongodb://localhost:27017/appdb"] := by
  rw [← modelsIndex_url, ← connectUrl_eq_url]
  obtain ⟨post, hrun, hpost, -⟩ := run_trace_main env outcome early listenFirst net
  have hnil : connectArgs post = [] := by
    unfold connectArgs
    rw [List.filterMap_eq_nil_iff]
    exact fun x hx => (hpost x hx).2.2.1
  have happ : connectArgs (mainTrace env ++ post) =
      connectArgs (mainTrace env) ++ connectArgs post := by
    simp [connectArgs]
  rw [hrun, happ, hnil]
  rfl

/-- C4 (as stated) fails: with `PORT` set to the empty string the server
listens on the default `3000`, not on the value of the variable. -/
theorem listen_port_set_empty_counterexample :
    List.lookup "PORT" ([("PORT", "")] : Env) = some "" ∧
    listenArgs (run [("PORT", "")] .fulfilled false false ⟨true, true⟩).trace =
      [.num 3000] ∧
    listenArgs (run [("PORT", "")] .fulfilled false false ⟨true, true⟩).trace ≠
      [.str ""] := by
  decide

/-- C4 (amended): in every run `listen` is called exactly once; its port is
the value of `PORT` when that variable is set to a non-empty string, and the
number `3000` when the variable is unset or set to the empty string. -/
theorem listen_port_configured (env : Env) (outcome : Settlement)
    (early listenFirst : Bool) (net : HttpStack) :
    listenArgs (run env outcome early listenFirst net).trace =
      [match env.lookup "PORT" with
       | some v => if v = "" then .num 3000 else .str v
       | none => .num 3000] := by
  rw [← PORT_eq]
  obtain ⟨post, hrun, hpost, -⟩ := run_trace_main env outcome early listenFirst net
  have hnil : listenArgs post = [] := by
    unfold listenArgs
    rw [List.filterMap_eq_nil_iff]
    exact fun x hx => (hpost x hx).2.2.2.1
  have happ : listenArgs (mainTrace env ++ post) =
      listenArgs (mainTrace env) ++ listenArgs post := by
    simp [listenArgs]
  rw [hrun, happ, hnil]
  rfl

/-- C8: in every run, whatever the outcome of the connection and whatever
`listen` does, the trace begins with the five calls of the module body, route
registration and the call to `listen` last, and nothing after them is made by
the module body: every effect of the success or failure callback comes after
the call to `listen`. When `listen` does not throw and the server has not
failed to bind before the connection settles, such a callback does run; and
when the server is bound before the connection settles, the listen callback
is the first effect after the module body, for either outcome. -/
theorem listen_precedes_connection_callbacks (env : Env) (outcome : Settlement)
    (early listenFirst : Bool) (net : HttpStack) :
    ∃ post,
      (run env outcome early listenFirst net).trace =
        [(Ctx.main, Effect.use .json), (Ctx.main, Effect.use .urlencoded),
         (Ctx.main, Effect.connect (connectUrl env) connectOptions),
         (Ctx.main, Effect.registerRoutes),
         (Ctx.main, Effect.listen (PORT env) "0.0.0.0")] ++ post ∧
      (∀ x ∈ post, x.1 ≠ Ctx.main) ∧
      (listenThrows (PORT env) net = false → (listenFirst = true → net.binds = true) →
        ∃ x ∈ post, x.1 = Ctx.thenCallback ∨ x.1 = Ctx.catchCallback) ∧
      (listenThrows (PORT env) net = false → net.binds = true → listenFirst = true →
        ∃ rest, post =
          (Ctx.listenCallback,
            Effect.log ["Server is running on port " ++ (PORT env).toStr ++ "."]) :: rest) := by
  obtain ⟨post, hrun, hpost, -⟩ := run_trace_main env outcome early listenFirst net
  refine ⟨post, hrun, fun x hx => (hpost x hx).1, ?_, ?_⟩
  · intro hlisten hbind
    cases outcome with
    | rejected err =>
      rw [run_rejected env err early listenFirst net hlisten hbind] at hrun
      rw [List.append_assoc] at hrun
      have hp := List.append_cancel_left hrun
      rw [← hp]
      exact ⟨(Ctx.catchCallback, Effect.exit none), by simp [failureTrace], Or.inr rfl⟩
    | fulfilled =>
      cases hB : net.binds
      · have hL : listenFirst = false := by
          cases listenFirst
          · rfl
          · rw [hbind rfl] at hB; exact Bool.noConfusion hB
        subst hL
        rw [run_fulfilled_unbound env early false net hlisten hB] at hrun
        have hp := List.append_cancel_left hrun
        rw [← hp]
        exact ⟨_, List.mem_singleton.2 rfl, Or.inl rfl⟩
      · rw [run_fulfilled env early listenFirst net hlisten hB] at hrun
        have hp := List.append_cancel_left hrun
        rw [← hp]
        exact ⟨(Ctx.thenCallback, Effect.log ["Connected to the database!"]),
          by cases listenFirst <;> simp [listenTrace], Or.inl rfl⟩
  · intro hlisten hB hL
    subst hL
    cases outcome with
    | rejected err =>
      rw [run_rejected env err early true net hlisten (fun _ => hB)] at hrun
      rw [List.append_assoc] at hrun
      have hp := List.append_cancel_left hrun
      rw [← hp]
      exact ⟨_, rfl⟩
    | fulfilled =>
      rw [run_fulfilled env early true net hlisten hB] at hrun
      have hp := List.append_cancel_left hrun
      rw [← hp]
      exact ⟨_, rfl⟩

/-- Witness for C8: `PORT` set to `8080`, the server bound before the connection
is established. -/
theorem listen_precedes_connection_callbacks_witness :
    listenThrows (PORT [("PORT", "8080")]) ⟨true, true⟩ = false ∧
    ∃ post,
      (run [("PORT", "8080")] .fulfilled false true ⟨true, true⟩).trace =
        [(Ctx.main, Effect.use .json), (Ctx.main, Effect.use .urlencoded),
         (Ctx.main, Effect.connect (connectUrl [("PORT", "8080")]) connectOptions),
         (Ctx.main, Effect.registerRoutes),
         (Ctx.main, Effect.listen (PORT [("PORT", "8080")]) "0.0.0.0")] ++ post ∧
      (∃ x ∈ post, x.1 = Ctx.thenCallback ∨ x.1 = Ctx.catchCallback) ∧
      (∃ rest, post =
        (Ctx.listenCallback,
          Effect.log ["Server is running on port " ++
            (PORT [("PORT", "8080")]).toStr ++ "."]) :: rest) :=
  ⟨by decide,
   match listen_precedes_connection_callbacks [("PORT", "8080")] .fulfilled false true
      ⟨true, true⟩ with
   | ⟨post, h1, _, h3, h4⟩ =>
     ⟨post, h1, h3 (by decide) (fun _ => rfl), h4 (by decide) rfl rfl⟩⟩

/-- C9 (as stated) fails: with `PORT` set to `65536` and a rejected connection
promise the call to `listen` throws; `process.exit` is never called and the
process ends with status `1`, not `0`. -/
theorem connect_failure_exit_status_counterexample :
    exitArgs (run [("MONGO_URL", "foo"), ("PORT", "65536")]
      (.rejected "Invalid connection string") true false ⟨true, true⟩).trace = [] ∧
    (run [("MONGO_URL", "foo"), ("PORT", "65536")]
      (.rejected "Invalid connection string") true false ⟨true, true⟩).status = some 1 ∧
    (run [("MONGO_URL", "foo"), ("PORT", "65536")]
      (.rejected "Invalid connection string") true false ⟨true, true⟩).status ≠ some 0 := by
  decide

/-- C9 (amended): in every run whose connection attempt fails, `process.exitCode`
is never set and `process.exit` is never called with a status argument; and
when the call to `listen` does not throw and the server has not failed to bind
before the rejection is handled, `process.exit` is called exactly once, by the
failure handler, and the process ends with exit status `0`. -/
theorem connect_failure_exit_status_zero (env : Env) (err : String)
    (early listenFirst : Bool) (net : HttpStack) :
    (run env (.rejected err) early listenFirst net).exitCode = none ∧
    (∀ code ∈ exitArgs (run env (.rejected err) early listenFirst net).trace,
      code = none) ∧
    (listenThrows (PORT env) net = false → (listenFirst = true → net.binds = true) →
      exitArgs (run env (.rejected err) early listenFirst net).trace = [none] ∧
      effectsOf .catchCallback (run env (.rejected err) early listenFirst net).trace =
        [.log ["Cannot connect to the database!", err], .exit none] ∧
      (run env (.rejected err) early listenFirst net).status = some 0) := by
  obtain ⟨post, hrun, hpost, hcode⟩ :=
    run_trace_main env (.rejected err) early listenFirst net
  refine ⟨hcode, ?_, ?_⟩
  · intro code hc
    rw [hrun] at hc
    simp only [exitArgs, List.filterMap_append, List.mem_append, List.mem_filterMap] at hc
    rcases hc with ⟨x, hx, hxc⟩ | ⟨x, hx, hxc⟩
    · simp only [mainTrace, List.mem_cons, List.mem_singleton, List.not_mem_nil,
        or_false] at hx
      rcases hx with h | h | h | h | h <;> rw [h] at hxc <;>
        simp [Effect.exitArg?] at hxc
    · rcases (hpost x hx).2.2.2.2 with h | h
      · rw [h] at hxc; exact absurd hxc (by simp)
      · rw [h] at hxc; exact (Option.some.inj hxc).symm
  · intro hlisten hbind
    rw [run_rejected env err early listenFirst net hlisten hbind]
    cases listenFirst <;> exact ⟨rfl, rfl, rfl⟩

/-- Witness for C9: `PORT` set to `8080`, connection refused before the server
is bound. -/
theorem connect_failure_exit_status_zero_witness :
    listenThrows (PORT [("PORT", "8080")]) ⟨true, false⟩ = false ∧
    exitArgs (run [("PORT", "8080")] (.rejected "ECONNREFUSED") false false
      ⟨true, false⟩).trace = [none] ∧
    effectsOf .catchCallback (run [("PORT", "8080")] (.rejected "ECONNREFUSED") false false
      ⟨true, false⟩).trace =
      [.log ["Cannot connect to the database!", "ECONNREFUSED"], .exit none] ∧
    (run [("PORT", "8080")] (.rejected "ECONNREFUSED") false false
      ⟨true, false⟩).status = some 0 :=
  ⟨by decide,
   (connect_failure_exit_status_zero [("PORT", "8080")] "ECONNREFUSED" false false
      ⟨true, false⟩).2.2 (by decide) (fun h => Bool.noConfusion h)⟩

/-- C10: for every environment the connection string computed by the bootstrap,
`process.env.MONGO_URL || db.url`, equals `db.url` of the model index, it is
the one string passed to `connect`, and when `MONGO_URL` is the empty string
both are the hardcoded fallback. -/
theorem connect_url_eq_db_url (env : Env) (net : HttpStack) :
    connectUrl env = (modelsIndex env).url ∧
    connectArgs (serverMain env none net Proc.start).trace = [(modelsIndex env).url] ∧
    (env.lookup "MONGO_URL" = some "" →
      connectUrl env = .str "mongodb://localhost:27017/appdb" ∧
      (modelsIndex env).url = .str "mongodb://localhost:27017/appdb") := by
  refine ⟨connectUrl_eq_url env, ?_, ?_⟩
  · rw [← connectUrl_eq_url, serverMain_trace]; rfl
  · intro h
    rw [connectUrl_eq_url, modelsIndex_url, h]
    simp

/-- Witness for C10 at the environment where `MONGO_URL` is the empty string. -/
theorem connect_url_eq_db_url_witness :
    List.lookup "MONGO_URL" ([("MONGO_URL", "")] : Env) = some "" ∧
    connectUrl [("MONGO_URL", "")] = .str "mongodb://localhost:27017/appdb" ∧
    (modelsIndex [("MONGO_URL", "")]).url = .str "mongodb://localhost:27017/appdb" :=
  ⟨by decide, (connect_url_eq_db_url [("MONGO_URL", "")] ⟨true, true⟩).2.2 (by decide)⟩

/-! ## Data Access Layer and Route Layer: claims -/

/-- C5: on a well-formed store, a create request is rejected with a validation
error (HTTP 400, store unchanged) if and only if the title is absent or empty;
with a non-empty title it answers 200 with a newly stored record whose title,
description and published flag echo the input (published defaulting to false)
and whose id differs from the id of every record already stored. -/
theorem create_validates_and_echoes (s : Store) (f : Fields) (hwf : s.WF) :
    ((postTutorials s f).1.status = 400 ↔ (f.title = none ∨ f.title = some "")) ∧
    (create s f = .error .validation ↔ (f.title = none ∨ f.title = some "")) ∧
    ((f.title = none ∨ f.title = some "") → (postTutorials s f).2 = s) ∧
    (∀ t, f.title = some t → t ≠ "" →
      ∃ r, create s f = .ok (r, { records := s.records ++ [r], nextId := s.nextId + 1 }) ∧
        postTutorials s f =
          ({ status := 200, body := .record r },
           { records := s.records ++ [r], nextId := s.nextId + 1 }) ∧
        r.title = t ∧ r.description = f.description ∧
        r.published = f.published.getD false ∧
        ∀ x ∈ s.records, x.id ≠ r.id) := by
  cases ht : f.title with
  | none => simp [postTutorials, create, ht, errorResponse]
  | some t =>
    by_cases he : t = ""
    · simp [postTutorials, create, ht, he, errorResponse]
    · refine ⟨by simp [postTutorials, create, ht, he], by simp [create, ht, he],
        by simp [he], ?_⟩
      intro t' ht' _
      have htt : t = t' := Option.some.inj ht'
      subst htt
      refine ⟨{ id := s.nextId, title := t, description := f.description,
                published := f.published.getD false }, ?_, ?_, rfl, rfl, rfl, ?_⟩
      · simp [create, ht, he]
      · simp [postTutorials, create, ht, he]
      · intro x hx
        exact Nat.ne_of_lt (hwf.2 x hx)

/-- Witness for C5: in the sample store, creating `Learn Z` succeeds and a
request with an empty title leaves the store unchanged. -/
theorem create_validates_and_echoes_witness :
    sampleStore.WF ∧
    (postTutorials sampleStore ⟨some "", none, none⟩).2 = sampleStore ∧
    ∃ r, create sampleStore ⟨some "Learn Z", none, none⟩ =
        .ok (r, { records := sampleStore.records ++ [r],
                  nextId := sampleStore.nextId + 1 }) ∧
      postTutorials sampleStore ⟨some "Learn Z", none, none⟩ =
        ({ status := 200, body := .record r },
         { records := sampleStore.records ++ [r], nextId := sampleStore.nextId + 1 }) ∧
      r.title = "Learn Z" ∧ r.description = none ∧
      r.published = (none : Option Bool).getD false ∧
      ∀ x ∈ sampleStore.records, x.id ≠ r.id :=
  ⟨by decide,
   (create_validates_and_echoes sampleStore ⟨some "", none, none⟩ (by decide)).2.2.1
    (Or.inr rfl),
   (create_validates_and_echoes sampleStore ⟨some "Learn Z", none, none⟩ (by decide)).2.2.2
    "Learn Z" rfl (by decide)⟩

/-- C6: for every case folding, every store and every title filter, `findAll`
returns exactly the stored records, in store order, whose title has a
contiguous run of characters equal to the filter up to case (equivalently,
whose case-folded title contains the case-folded filter as a substring);
two filters equal up to case give the same result; with an empty filter or no
filter it returns every stored record. -/
theorem findAll_title_filter (fold : Char → Char) (s : Store) (filter : String) :
    (∀ r, titleContains fold filter r = true ↔
      ∃ pre mid post, r.title.data = pre ++ mid ++ post ∧
        mid.map fold = filter.data.map fold) ∧
    (∀ r, titleContains fold filter r = true ↔
      ∃ pre post, foldCase fold r.title = pre ++ foldCase fold filter ++ post) ∧
    findAll fold s (some filter) = s.records.filter (titleContains fold filter) ∧
    (∀ r, r ∈ findAll fold s (some filter) ↔
      r ∈ s.records ∧ ∃ pre mid post, r.title.data = pre ++ mid ++ post ∧
        mid.map fold = filter.data.map fold) ∧
    getTutorials fold s (some filter) =
      { status := 200, body := .list (s.records.filter (titleContains fold filter)) } ∧
    (∀ filter2 : String, foldCase fold filter2 = foldCase fold filter →
      findAll fold s (some filter2) = findAll fold s (some filter)) ∧
    findAll fold s (some "") = s.records ∧
    findAll fold s none = s.records := by
  have hfolded : ∀ r, titleContains fold filter r = true ↔
      ∃ pre post, foldCase fold r.title = pre ++ foldCase fold filter ++ post :=
    fun r => occursIn_iff _ _
  have hspec : ∀ r, titleContains fold filter r = true ↔
      ∃ pre mid post, r.title.data = pre ++ mid ++ post ∧
        mid.map fold = filter.data.map fold :=
    fun r => (hfolded r).trans (map_eq_around fold r.title.data filter.data)
  refine ⟨hspec, hfolded, rfl, ?_, rfl, ?_, ?_, rfl⟩
  · intro r
    simp only [findAll, List.mem_filter, hspec]
  · intro filter2 h
    have hsame : titleContains fold filter2 = titleContains fold filter := by
      funext r
      simp only [titleContains, h]
    simp only [findAll, hsame]
  · simp only [findAll]
    rw [List.filter_eq_self]
    intro r _
    exact occursIn_nil _

/-- Witness for C6: with the sample folding, the filters `ÉLAN` and `élan` are
equal up to case and both select the record titled `Élan vital`. -/
theorem findAll_title_filter_witness :
    foldCase sampleFold "ÉLAN" = foldCase sampleFold "élan" ∧
    findAll sampleFold ⟨[⟨0, "Élan vital", none, false⟩, ⟨1, "Learn X", none, false⟩], 2⟩
        (some "ÉLAN") =
      findAll sampleFold ⟨[⟨0, "Élan vital", none, false⟩, ⟨1, "Learn X", none, false⟩], 2⟩
        (some "élan") ∧
    findAll sampleFold ⟨[⟨0, "Élan vital", none, false⟩, ⟨1, "Learn X", none, false⟩], 2⟩
        (some "élan") = [⟨0, "Élan vital", none, false⟩] :=
  ⟨by decide,
   (findAll_title_filter sampleFold
      ⟨[⟨0, "Élan vital", none, false⟩, ⟨1, "Learn X", none, false⟩], 2⟩
      "élan").2.2.2.2.2.1 "ÉLAN" (by decide),
   by decide⟩

/-- C7: `update` on an id that exists answers 200 and replaces the first
record with that id by one with the same id in which every supplied field has
the supplied value and every other field is unchanged; all other records, their
order and the id generator are unchanged. `update` on an id that does not
exist signals not-found (HTTP 404) and leaves the store unchanged. -/
theorem update_changes_only_supplied_fields (s : Store) (id : Nat) (f : Fields) :
    ((∃ r ∈ s.records, r.id = id) →
      ∃ pre r post r',
        s.records = pre ++ r :: post ∧ r.id = id ∧ (∀ x ∈ pre, x.id ≠ id) ∧
        update s id f = .ok { records := pre ++ r' :: post, nextId := s.nextId } ∧
        putTutorial s id f =
          ({ status := 200, body := .success },
           { records := pre ++ r' :: post, nextId := s.nextId }) ∧
        r'.id = r.id ∧
        r'.title = f.title.getD r.title ∧
        r'.description = f.description.or r.description ∧
        r'.published = f.published.getD r.published) ∧
    ((∀ r ∈ s.records, r.id ≠ id) →
      update s id f = .error .notFound ∧
      putTutorial s id f = ({ status := 404, body := .error .notFound }, s)) := by
  constructor
  · intro h
    obtain ⟨pre, r, post, hsplit, hid, hpre, hupd⟩ := updateRecords_split id f s.records h
    refine ⟨pre, r, post, r.patch f, hsplit, hid, hpre, ?_, ?_, rfl, ?_, ?_, ?_⟩
    · simp [update, hupd]
    · simp [putTutorial, update, hupd]
    · cases ht : f.title <;> simp [Tutorial.patch, ht]
    · cases hd : f.description <;> simp [Tutorial.patch, hd]
    · cases hp : f.published <;> simp [Tutorial.patch, hp]
  · intro h
    have hnone := updateRecords_eq_none id f s.records h
    simp [putTutorial, update, hnone, errorResponse]

/-- Witness for C7: in the sample store, unpublishing record `1` and updating
the absent id `7`. -/
theorem update_changes_only_supplied_fields_witness :
    (∃ pre r post r',
        sampleStore.records = pre ++ r :: post ∧ r.id = 1 ∧ (∀ x ∈ pre, x.id ≠ 1) ∧
        update sampleStore 1 ⟨none, none, some false⟩ =
          .ok { records := pre ++ r' :: post, nextId := sampleStore.nextId } ∧
        putTutorial sampleStore 1 ⟨none, none, some false⟩ =
          ({ status := 200, body := .success },
           { records := pre ++ r' :: post, nextId := sampleStore.nextId }) ∧
        r'.id = r.id ∧
        r'.title = (none : Option String).getD r.title ∧
        r'.description = (none : Option String).or r.description ∧
        r'.published = (some false).getD r.published) ∧
    (update sampleStore 7 ⟨none, none, some false⟩ = .error .notFound ∧
      putTutorial sampleStore 7 ⟨none, none, some false⟩ =
        ({ status := 404, body := .error .notFound }, sampleStore)) :=
  ⟨(update_changes_only_supplied_fields sampleStore 1 ⟨none, none, some false⟩).1
      (by decide),
   (update_changes_only_supplied_fields sampleStore 7 ⟨none, none, some false⟩).2
      (by decide)⟩

end Backend
